import Mathlib

/-!
Shallow embedding of the graph model and run/persistence layer of the
workflow editor, translated from the repository sources:

* `src/src/components/workflow-provider.tsx` — the `Workflow` / `WorkflowRun`
  records and the `saveWorkflow` / `loadWorkflow` / `runWorkflow` callbacks;
* `src/unnamed/part_002` — the ReactFlow canvas: node registry, `onConnect`
  edge labelling for `logic.if` sources, and `saveLocal` / `loadLocal`;
* `src/unnamed/part_001` — the form builder `handleImport` validation.

JavaScript values are embedded as follows: JSON-serialisable values become the
`Json` inductive below (numbers as `Int`: the graph data only carries integral
numbers, and float formatting plays no role in any property considered here);
`undefined`/`null` record fields become `Option`; a JS union of string literals
becomes a Lean inductive.  Stateful React `setX` updates become explicit state
passing on a `ProviderState` record.
-/

/-- A JSON value, as produced by `JSON.stringify` / consumed by `JSON.parse`
in the sources.  `undefined` and `null` are conflated into `Json.null`
(both are falsy and both read back as an absent/empty field). -/
inductive Json where
  | str : String → Json
  | num : Int → Json
  | bool : Bool → Json
  | null : Json
  | arr : List Json → Json
  | obj : List (String × Json) → Json
  deriving Repr

/-- JS property access `v[k]` on a parsed JSON value: `none` when `v` is not
an object or lacks the key (JS would give `undefined`). -/
def Json.getKey : Json → String → Option Json
  | .obj kvs, k => kvs.lookup k
  | _, _ => none

/-- JS truthiness of a JSON value (`if (v) ...`): empty string, `0`, `false`
and `null`/`undefined` are falsy, everything else truthy. -/
def jsTruthy : Option Json → Bool
  | none => false
  | some (.str s) => s ≠ ""
  | some (.num n) => n ≠ 0
  | some (.bool b) => b
  | some .null => false
  | some (.arr _) => true
  | some (.obj _) => true

/-- JS string-or-default `s || d` for string-valued expressions
(`currentWorkflow?.id || fresh`): the default is taken when `s` is absent or
the empty string. -/
def jsOrStr (s : Option String) (d : String) : String :=
  match s with
  | none => d
  | some s => if s = "" then d else s

/-- A ReactFlow node as the sources build them (`part_002` `addNode`,
`workflow-canvas.tsx` `onDrop`): an id, a node-type string (the `NodeKind`
registry key, e.g. `"logic.if"`), a canvas position and a free-form `data`
record (label, per-kind config, ...). -/
structure WNode where
  id : String
  type : String
  px : Int
  py : Int
  data : Json
  deriving Repr

/-- A ReactFlow edge as the sources build them (`addEdge` from a
`Connection`): endpoints, optional source/target handle ids (the handle id is
the output port, `"0"`/`"1"` for `logic.if` per the `NodeBase` handles in
`part_002`), the optional `data.condition` payload (the typed edge data
`{ condition?: "true" | "false" }` of the `RFE` type in `part_002`, here the
condition string itself) and the optional display label.  Display-only
fields (`markerEnd`, css type) are omitted: no claim mentions them. -/
structure WEdge where
  id : String
  source : String
  sourceHandle : Option String
  target : String
  targetHandle : Option String
  condition : Option String
  label : Option String
  deriving Repr

/-- The `Workflow` record of `workflow-provider.tsx` (lines 6–15). -/
structure Workflow where
  id : String
  name : String
  description : String
  nodes : List WNode
  edges : List WEdge
  outputs : Int
  createdAt : String
  updatedAt : String
  deriving Repr

/-- The status union of `WorkflowRun` in `workflow-provider.tsx` line 20:
`"running" | "completed" | "failed"` — the source has no other member. -/
inductive RunStatus where
  | running
  | completed
  | failed
  deriving Repr, BEq, DecidableEq

/-- The string literal a `RunStatus` stands for in the source. -/
def RunStatus.asString : RunStatus → String
  | .running => "running"
  | .completed => "completed"
  | .failed => "failed"

/-- The `WorkflowRun` record of `workflow-provider.tsx` (lines 17–25). -/
structure WorkflowRun where
  id : String
  workflowId : String
  status : RunStatus
  startedAt : String
  completedAt : Option String
  logs : List String
  result : Option Json
  deriving Repr

/-- The in-memory state held by `WorkflowProvider` (its four `useState`
hooks).  The `localStorage` mirror is carried separately where a claim needs
it. -/
structure ProviderState where
  currentWorkflow : Option Workflow
  workflows : List Workflow
  workflowRuns : List WorkflowRun
  isRunning : Bool
  deriving Repr

/-- The run object `runWorkflow` constructs (lines 134–140): status
`running`, a single starting log line, no completion data yet. -/
def mkRun (runId wid wname t0 : String) : WorkflowRun :=
  { id := runId
    workflowId := wid
    status := .running
    startedAt := t0
    completedAt := none
    logs := ["Starting workflow: " ++ wname]
    result := none }

/-- The `completedRun` update of `runWorkflow` (lines 148–159): spread of the
created run with status `completed`, a completion time, three appended log
lines and the fixed success result object. -/
def completeRun (r : WorkflowRun) (t1 : String) : WorkflowRun :=
  { r with
    status := .completed
    completedAt := some t1
    logs := r.logs ++
      ["Executing nodes in sequence...",
       "All nodes completed successfully",
       "Workflow execution finished"]
    result := some (.obj
      [("success", .bool true),
       ("message", .str "Workflow completed successfully")]) }

/-- The `failedRun` update of `runWorkflow` (lines 163–168): spread of the
created run with status `failed`, a completion time and one appended error
log line. -/
def failRun (r : WorkflowRun) (t1 err : String) : WorkflowRun :=
  { r with
    status := .failed
    completedAt := some t1
    logs := r.logs ++ ["Error: " ++ err] }

/-- The single update `runWorkflow` applies to its created run: the `try`
branch (`completedRun`) when the awaited simulation resolves, the `catch`
branch (`failedRun`) when it throws `e`. -/
def runOutcome (r : WorkflowRun) (t1 : String) (err : Option String) : WorkflowRun :=
  match err with
  | none => completeRun r t1
  | some e => failRun r t1 e

/-- The `runWorkflow` callback (workflow-provider.tsx lines 127–176) as a state
transformer.  `runId`/`t0`/`t1` stand for the `Date.now()` /
`toISOString()` readings, `err` for the outcome of the awaited simulation
promise (`none`: it resolved, as `setTimeout` always does; `some e`: it
threw `e`).  The source: looks the workflow up by id and returns with no
effect when absent; otherwise sets `isRunning`, appends the new `running`
run, replaces every run whose id matches by the completed/failed run
(`prev.map(r => r.id === run.id ? finalRun : r)`), and finally clears
`isRunning`. -/
def runWorkflow (st : ProviderState) (wid runId t0 t1 : String)
    (err : Option String) : ProviderState :=
  match st.workflows.find? (fun w => w.id == wid) with
  | none => st
  | some w =>
    let run := mkRun runId wid w.name t0
    let finalRun := runOutcome run t1 err
    { st with
      workflowRuns :=
        (st.workflowRuns ++ [run]).map
          (fun r => if r.id == run.id then finalRun else r)
      isRunning := false }

/-- The intermediate run list right after `setWorkflowRuns((prev) =>
[...prev, run])` (line 142), before the completion update: the point at
which the Run exists in status `running`. -/
def runWorkflowCreatedRuns (st : ProviderState) (wid runId t0 : String) :
    List WorkflowRun :=
  match st.workflows.find? (fun w => w.id == wid) with
  | none => st.workflowRuns
  | some w => st.workflowRuns ++ [mkRun runId wid w.name t0]

example :
    (mkRun "run-1" "w1" "demo" "t0").status = RunStatus.running := rfl

/-- The workflow record `saveWorkflow` constructs (workflow-provider.tsx
lines 57–67): id and `createdAt` fall back from `currentWorkflow` via JS
`||` (so an absent current workflow, or an empty-string field, takes the
fresh id / the current time `now`). -/
def mkSavedWorkflow (cur : Option Workflow) (name descr : String)
    (nodes : List WNode) (edges : List WEdge) (outputs : Int)
    (now freshId : String) : Workflow :=
  { id := jsOrStr (cur.map (·.id)) freshId
    name := name
    description := descr
    nodes := nodes
    edges := edges
    outputs := outputs
    createdAt := jsOrStr (cur.map (·.createdAt)) now
    updatedAt := now }

/-- The `setWorkflows` updater of `saveWorkflow` (lines 69–75): if an entry
with the id of the new workflow exists, map-replace it in place, else append.
The `localStorage` branch (lines 80–87, `findIndex`/assign-or-push) has the
same replace-or-push semantics. -/
def saveWorkflowList (prev : List Workflow) (w : Workflow) : List Workflow :=
  if (prev.find? (fun x => x.id == w.id)).isSome then
    prev.map (fun x => if x.id == w.id then w else x)
  else
    prev ++ [w]

/-- The `saveWorkflow` callback (workflow-provider.tsx lines 55–90) on the provider
state: build the workflow record, replace-or-append it in the list, and make
it the current workflow. -/
def saveWorkflow (st : ProviderState) (name descr : String)
    (nodes : List WNode) (edges : List WEdge) (outputs : Int)
    (now freshId : String) : ProviderState :=
  let w := mkSavedWorkflow st.currentWorkflow name descr nodes edges outputs now freshId
  { st with
    workflows := saveWorkflowList st.workflows w
    currentWorkflow := some w }

/-- A ReactFlow `Connection` as passed to `onConnect`: endpoints plus the
handle (port) ids the user dragged between. -/
structure Connection where
  source : String
  sourceHandle : Option String
  target : String
  targetHandle : Option String
  deriving Repr

/-- The edge id ReactFlow generates for a connection: the literal text
`reactflow__edge-` followed by the source id, the source handle (empty when
absent), a dash, the target id and the target handle. -/
def edgeId (c : Connection) : String :=
  "reactflow__edge-" ++ c.source ++ c.sourceHandle.getD "" ++ "-" ++
    c.target ++ c.targetHandle.getD ""

/-- The duplicate test of ReactFlow `addEdge`: an edge with the same source,
target and handle pair already exists. -/
def connectionExists (e : WEdge) (eds : List WEdge) : Bool :=
  eds.any (fun x =>
    x.source == e.source && x.target == e.target &&
    x.sourceHandle == e.sourceHandle && x.targetHandle == e.targetHandle)

/-- The ReactFlow `addEdge` helper: append the new edge unless the same connection is
already present. -/
def addEdgeList (e : WEdge) (eds : List WEdge) : List WEdge :=
  if connectionExists e eds then eds else eds ++ [e]

/-- Model of `s.trim().toLowerCase()` as applied to the `prompt` answer in
`onConnect` (ASCII space trimming suffices for the strings involved). -/
def jsTrimLower (s : String) : String :=
  String.mk
    ((((s.data.dropWhile (· == ' ')).reverse.dropWhile (· == ' ')).reverse).map
      Char.toLower)

/-- The source test of `onConnect` (part_002 lines 165–166): `const src =
nodes.find(n => n.id === conn.source); const isIf = src?.type ===
"logic.if"` — `false` when the source node is missing (`undefined`
comparison). -/
def isIfSource (nodes : List WNode) (src : String) : Bool :=
  match nodes.find? (fun n => n.id == src) with
  | some n => n.type == "logic.if"
  | none => false

/-- The label computation of `onConnect` (part_002 lines 169–172): only for a
`logic.if` source is the user prompted, and only a trimmed, lower-cased
answer of exactly `"true"` or `"false"` becomes a label. -/
def promptLabel (isIf : Bool) (ans : Option String) : Option String :=
  match isIf, ans.map jsTrimLower with
  | true, some a => if a == "true" || a == "false" then some a else none
  | true, none => none
  | false, _ => none

/-- The `onConnect` handler from `part_002` (lines 163–188): when the
source node of the connection is a `logic.if` node the user is prompted; a trimmed,
lower-cased answer of `"true"`/`"false"` becomes the condition label of the edge
(stored both as `data.condition` and as the display `label`); any other
answer — or a non-`logic.if` source — yields an unlabelled edge.  `ans` is
the raw `prompt` return value (`none` = dismissed); for a non-`logic.if`
source the prompt never runs and `ans` is irrelevant. -/
def onConnect (nodes : List WNode) (edges : List WEdge) (c : Connection)
    (ans : Option String) : List WEdge :=
  let label : Option String := promptLabel (isIfSource nodes c.source) ans
  addEdgeList
    { id := edgeId c
      source := c.source
      sourceHandle := c.sourceHandle
      target := c.target
      targetHandle := c.targetHandle
      condition := label
      label := label }
    edges

/-- The schema-level error message thrown by `handleImport` (part_001
line 139). -/
def importMsgSchema : String := "Invalid schema: must have title and elements array"

/-- The per-element error message thrown by `handleImport` (part_001
line 145). -/
def importMsgElement : String := "Invalid element: missing required fields"

/-- The element test of the `handleImport` loop (part_001 line 144):
`element.id`, `element.fieldName` and `element.type` are all truthy. -/
def elementValid (e : Json) : Bool :=
  jsTruthy (e.getKey "id") && jsTruthy (e.getKey "fieldName") &&
    jsTruthy (e.getKey "type")

/-- The `for (const element of parsed.elements)` loop of `handleImport`:
`throw` (here: `Except.error`) at the FIRST invalid element, never looking
at the rest. -/
def checkElements : List Json → Except String Unit
  | [] => .ok ()
  | e :: es => if elementValid e then checkElements es else .error importMsgElement

/-- The validation performed by `handleImport` (part_001 lines 133–157) on
an already-parsed JSON value: the schema-level check
(`!parsed.title || !Array.isArray(parsed.elements)`) throws first, then the
element loop throws at the first bad element; on success the parsed schema
is installed unchanged. -/
def handleImportCheck (parsed : Json) : Except String Json :=
  let titleOk := jsTruthy (parsed.getKey "title")
  match parsed.getKey "elements" with
  | some (.arr es) =>
    if !titleOk then .error importMsgSchema
    else
      match checkElements es with
      | .ok _ => .ok parsed
      | .error m => .error m
  | _ => .error importMsgSchema

/-- Modelled from the spec: the complete list of violations in an imported
schema, one entry per problem, as §4.1/§7 require of a validator that
"collects all violations, not short-circuited" — the schema-level problem
(if any) and one entry for EVERY invalid element.  The source has no such
collector; this definition exists to compare `handleImportCheck` against
the wording of the spec. -/
def importAllViolations (parsed : Json) : List String :=
  (match parsed.getKey "elements" with
   | some (.arr es) =>
     (if jsTruthy (parsed.getKey "title") then [] else [importMsgSchema]) ++
       (es.filter (fun e => !elementValid e)).map (fun _ => importMsgElement)
   | _ => [importMsgSchema])

/-- The error kinds of spec §7 for `ValidationFailed`, one per Validator
check of §4.1. -/
inductive ValidationError where
  | SchemaInvalid (nodeId : String)
  | DanglingEdge (edgeId : String)
  | PortConflict (nodeId : String)
  | CycleDetected
  | Unreachable (nodeId : String)
  deriving Repr, DecidableEq

/-- The four trigger kinds of the closed `NodeKind` enumeration
(the palette in `part_002` / spec §3). -/
def triggerKinds : List String :=
  ["trigger.manual", "trigger.webhook", "trigger.cron", "trigger.form"]

/-- The `logic.if` operator set (spec §4.1, matching the operator options of
the node inspector). -/
def ifOperators : List String :=
  ["equals", "not_equals", "contains", "greater_than", "less_than"]

/-- Modelled from the spec: the per-kind config schema check of §4.1, for
the kinds the spec specifies explicitly — `trigger.cron` requires a
non-empty cron expression string, `logic.if` requires a field path, an
operator from the fixed set and a comparison value (config keys as in the
node-inspector: `cronExpression`, `conditionField`, `operator`,
`conditionValue`).  The spec names no required fields for the remaining
kinds, so they pass. -/
def nodeSchemaOk (n : WNode) : Bool :=
  if n.type == "trigger.cron" then
    match n.data.getKey "cronExpression" with
    | some (.str s) => s ≠ ""
    | _ => false
  else if n.type == "logic.if" then
    (match n.data.getKey "conditionField" with
     | some (.str s) => s ≠ ""
     | _ => false) &&
    (match n.data.getKey "operator" with
     | some (.str op) => ifOperators.contains op
     | _ => false) &&
    (n.data.getKey "conditionValue").isSome
  else true

/-- The output port an edge leaves on: handle id `"1"` is port 1, anything
else (handle `"0"` or no handle) is port 0, per the `NodeBase`
handles with id `String(i)`. -/
def edgePort (e : WEdge) : Nat :=
  if e.sourceHandle == some "1" then 1 else 0

/-- Edges leaving a given node. -/
def outEdges (edges : List WEdge) (src : String) : List WEdge :=
  edges.filter (fun e => e.source == src)

/-- Modelled from the spec: §4.1 port legality — only `logic.if` may use
port 1, every other kind uses port 0 exclusively, and a `logic.if` node may
not have two edges on the same port. -/
def portErrors (wf : Workflow) : List ValidationError :=
  wf.nodes.filterMap (fun n =>
    let outs := outEdges wf.edges n.id
    if n.type == "logic.if" then
      if 2 ≤ (outs.filter (fun e => edgePort e == 0)).length ∨
         2 ≤ (outs.filter (fun e => edgePort e == 1)).length then
        some (.PortConflict n.id)
      else none
    else
      if outs.any (fun e => edgePort e == 1) then some (.PortConflict n.id)
      else none)

/-- Modelled from the spec: §4.1 edge endpoint existence — both endpoints of
every edge must reference real nodes. -/
def danglingErrors (wf : Workflow) : List ValidationError :=
  wf.edges.filterMap (fun e =>
    if wf.nodes.any (fun n => n.id == e.source) &&
       wf.nodes.any (fun n => n.id == e.target) then none
    else some (.DanglingEdge e.id))

/-- Successors of a node along the edge list. -/
def edgeTargets (edges : List WEdge) (src : String) : List String :=
  (outEdges edges src).map (·.target)

/-- Is there a directed path of length between 1 and `fuel` from `a` to
`b`? -/
def pathWithin (edges : List WEdge) : Nat → String → String → Bool
  | 0, _, _ => false
  | fuel + 1, a, b =>
    (edgeTargets edges a).any (fun c => c == b || pathWithin edges fuel c b)

/-- Modelled from the spec: §4.1 acyclicity — a cycle exists iff some node
reaches itself by a non-empty path (any cycle closes within `|nodes|`
steps).  The `runWorkflow` in the source takes no trigger argument, so the check
covers the whole edge set rather than a trigger-reachable subgraph. -/
def hasCycle (wf : Workflow) : Bool :=
  wf.nodes.any (fun n => pathWithin wf.edges wf.nodes.length n.id n.id)

/-- Modelled from the spec: §4.1 reachability — every non-trigger node needs
at least one inbound edge (no orphaned node lacking an activation path). -/
def unreachableErrors (wf : Workflow) : List ValidationError :=
  wf.nodes.filterMap (fun n =>
    if triggerKinds.contains n.type then none
    else if wf.edges.any (fun e => e.target == n.id) then none
    else some (.Unreachable n.id))

/-- Modelled from the spec: `validate(workflow) -> ValidationResult` of
§4.1.  The repository contains NO such validator (the run entry point,
`runWorkflow`, never validates); this definition renders the five checks of
§4.1 so claims about "workflows that pass/fail validation" can be stated.
All violations are collected (the non-short-circuiting rule of the spec); an
empty result means "runnable". -/
def specValidate (wf : Workflow) : List ValidationError :=
  wf.nodes.filterMap
      (fun n => if nodeSchemaOk n then none else some (.SchemaInvalid n.id)) ++
    danglingErrors wf ++
    portErrors wf ++
    (if hasCycle wf then [.CycleDetected] else []) ++
    unreachableErrors wf

/-- Canonical JSON form of a node, as `JSON.stringify` lays out the fields
the model carries. -/
def encodeNode (n : WNode) : Json :=
  .obj [("id", .str n.id), ("type", .str n.type),
        ("position", .obj [("x", .num n.px), ("y", .num n.py)]),
        ("data", n.data)]

/-- Parse a node back from its canonical JSON form. -/
def decodeNode : Json → Option WNode
  | .obj [("id", .str i), ("type", .str t),
          ("position", .obj [("x", .num x), ("y", .num y)]),
          ("data", d)] =>
    some { id := i, type := t, px := x, py := y, data := d }
  | _ => none

/-- An optional string field in serialized form (`null` for an absent
value). -/
def encodeOptStr : Option String → Json
  | none => .null
  | some s => .str s

/-- Parse an optional string field. -/
def decodeOptStr : Json → Option (Option String)
  | .null => some none
  | .str s => some (some s)
  | _ => none

/-- Canonical JSON form of an edge: endpoints, handles, the
`data.condition` payload exactly as `onConnect` builds it
(`{ condition: label }` or absent), and the display label. -/
def encodeEdge (e : WEdge) : Json :=
  .obj [("id", .str e.id), ("source", .str e.source),
        ("sourceHandle", encodeOptStr e.sourceHandle),
        ("target", .str e.target),
        ("targetHandle", encodeOptStr e.targetHandle),
        ("data",
          match e.condition with
          | none => .null
          | some c => .obj [("condition", .str c)]),
        ("label", encodeOptStr e.label)]

/-- Parse the `data.condition` payload of an edge. -/
def decodeCondition : Json → Option (Option String)
  | .null => some none
  | .obj [("condition", .str c)] => some (some c)
  | _ => none

/-- Parse an edge back from its canonical JSON form. -/
def decodeEdge : Json → Option WEdge
  | .obj [("id", .str i), ("source", .str s), ("sourceHandle", sh),
          ("target", .str t), ("targetHandle", th), ("data", d),
          ("label", l)] => do
    let sh ← decodeOptStr sh
    let th ← decodeOptStr th
    let c ← decodeCondition d
    let l ← decodeOptStr l
    some { id := i, source := s, sourceHandle := sh, target := t,
           targetHandle := th, condition := c, label := l }
  | _ => none

/-- Parse every element of a serialized list, failing if any element
fails. -/
def decodeListWith (f : Json → Option α) : List Json → Option (List α)
  | [] => some []
  | j :: js => do
    let a ← f j
    let as ← decodeListWith f js
    some (a :: as)

/-- Canonical JSON form of a `Workflow` record, as
`localStorage.setItem("workflows", JSON.stringify(...))` in
`saveWorkflow` lays it out. -/
def encodeWorkflow (w : Workflow) : Json :=
  .obj [("id", .str w.id), ("name", .str w.name),
        ("description", .str w.description),
        ("nodes", .arr (w.nodes.map encodeNode)),
        ("edges", .arr (w.edges.map encodeEdge)),
        ("outputs", .num w.outputs),
        ("createdAt", .str w.createdAt), ("updatedAt", .str w.updatedAt)]

/-- Parse a `Workflow` back from its canonical JSON form (the typed reading
of what `JSON.parse` hands `loadWorkflow`). -/
def decodeWorkflow : Json → Option Workflow
  | .obj [("id", .str i), ("name", .str nm), ("description", .str d),
          ("nodes", .arr ns), ("edges", .arr es), ("outputs", .num o),
          ("createdAt", .str c), ("updatedAt", .str u)] => do
    let nodes ← decodeListWith decodeNode ns
    let edges ← decodeListWith decodeEdge es
    some { id := i, name := nm, description := d, nodes := nodes,
           edges := edges, outputs := o, createdAt := c, updatedAt := u }
  | _ => none

/-- The `saveLocal` helper from `part_002` (lines 101–103): the stored value is
`JSON.stringify({ nodes, edges })`. -/
def saveLocal (nodes : List WNode) (edges : List WEdge) : Json :=
  .obj [("nodes", .arr (nodes.map encodeNode)),
        ("edges", .arr (edges.map encodeEdge))]

/-- The `loadLocal` helper from `part_002` (lines 104–113): `none` when nothing is
stored; otherwise the `nodes`/`edges` arrays of the parsed object with the
empty-list default for missing keys (a non-array value under either key has no typed
reading and fails). -/
def loadLocal (raw : Option Json) : Option (List WNode × List WEdge) :=
  match raw with
  | none => none
  | some j => do
    let ns ←
      match j.getKey "nodes" with
      | none => some []
      | some (.arr l) => decodeListWith decodeNode l
      | some _ => none
    let es ←
      match j.getKey "edges" with
      | none => some []
      | some (.arr l) => decodeListWith decodeEdge l
      | some _ => none
    some (ns, es)

/-- The run-record updates the engine ever performs: the `completedRun` and
`failedRun` replacements in the source are the only writes a run
receives after creation (workflow-provider.tsx lines 148–170). -/
inductive RunStep : WorkflowRun → WorkflowRun → Prop where
  | complete (r : WorkflowRun) (t1 : String) : RunStep r (completeRun r t1)
  | fail (r : WorkflowRun) (t1 e : String) : RunStep r (failRun r t1 e)

lemma map_replace_of_fresh (runs : List WorkflowRun) (runId : String)
    (fr : WorkflowRun) (hfresh : ∀ r ∈ runs, r.id ≠ runId) :
    runs.map (fun r => if r.id == runId then fr else r) = runs := by
  induction runs with
  | nil => rfl
  | cons a as ih =>
    have ha : (a.id == runId) = false := by
      simpa using hfresh a (by simp)
    have ih' := ih (fun r hr => hfresh r (by simp [hr]))
    rw [List.map_cons, if_neg (by simp [ha]), ih']

lemma runWorkflow_runs_append (st : ProviderState) (wid runId t0 t1 : String)
    (err : Option String) (w : Workflow)
    (hfind : st.workflows.find? (fun x => x.id == wid) = some w)
    (hfresh : ∀ r ∈ st.workflowRuns, r.id ≠ runId) :
    (runWorkflow st wid runId t0 t1 err).workflowRuns =
      st.workflowRuns ++ [runOutcome (mkRun runId wid w.name t0) t1 err] := by
  unfold runWorkflow
  rw [hfind]
  simp only [List.map_append]
  have hid : (mkRun runId wid w.name t0).id = runId := rfl
  rw [hid, map_replace_of_fresh st.workflowRuns runId _ hfresh]
  simp [mkRun]

lemma runOutcome_status (r : WorkflowRun) (t1 : String) (err : Option String) :
    (runOutcome r t1 err).status = .completed ∨
      (runOutcome r t1 err).status = .failed := by
  cases err with
  | none => exact Or.inl rfl
  | some e => exact Or.inr rfl

/-- Demo fixtures used by concrete witnesses and counterexamples. -/
def trigNode : WNode :=
  { id := "t1", type := "trigger.manual", px := 0, py := 0,
    data := .obj [("label", .str "manual")] }

def actNodeA : WNode :=
  { id := "a", type := "action.telegram", px := 0, py := 0,
    data := .obj [("label", .str "telegram")] }

def actNodeB : WNode :=
  { id := "b", type := "action.email", px := 0, py := 0,
    data := .obj [("label", .str "email")] }

def ifNode : WNode :=
  { id := "if1", type := "logic.if", px := 0, py := 0,
    data := .obj [("conditionField", .str "status"),
                  ("operator", .str "equals"),
                  ("conditionValue", .str "ok")] }

def mkPlainEdge (i s t : String) : WEdge :=
  { id := i, source := s, sourceHandle := some "0", target := t,
    targetHandle := none, condition := none, label := none }

/-- A trigger-only workflow: passes every check of `specValidate`. -/
def wfDemo : Workflow :=
  { id := "w1", name := "demo", description := "", nodes := [trigNode],
    edges := [], outputs := 1, createdAt := "T0", updatedAt := "T0" }

/-- A workflow with the cycle `a -> b -> a` downstream of the trigger:
scenario C of spec §8, which `specValidate` rejects with `CycleDetected`. -/
def wfCyclic : Workflow :=
  { id := "wbad", name := "cyclic", description := "",
    nodes := [trigNode, actNodeA, actNodeB],
    edges := [mkPlainEdge "e1" "t1" "a", mkPlainEdge "e2" "a" "b",
              mkPlainEdge "e3" "b" "a"],
    outputs := 1, createdAt := "T0", updatedAt := "T0" }

/-- C8: Executing a Run never mutates the Graph Model of the workflow: for every
provider state and every `runWorkflow` call, the workflow list (hence the
nodes, edges and per-node config of every workflow) and the current workflow are
identical before and after the run — the source only ever writes
`isRunning` and `workflowRuns`. -/
theorem c8_run_never_mutates_graph :
    ∀ (st : ProviderState) (wid runId t0 t1 : String) (err : Option String),
      (runWorkflow st wid runId t0 t1 err).workflows = st.workflows ∧
      (runWorkflow st wid runId t0 t1 err).currentWorkflow =
        st.currentWorkflow := by
  intro st wid runId t0 t1 err
  unfold runWorkflow
  cases st.workflows.find? (fun x => x.id == wid) <;> exact ⟨rfl, rfl⟩

/-- C9: For a `workflowId` not present in the store, `runWorkflow` is a
no-op: the guard `if (!workflow) return` fires before any state write, so
no Run is created, the run list and `isRunning` flag are unchanged, and
the caller gets no error (the function merely returns). -/
theorem c9_unknown_workflow_noop :
    ∀ (st : ProviderState) (wid runId t0 t1 : String) (err : Option String),
      (∀ w ∈ st.workflows, w.id ≠ wid) →
      runWorkflow st wid runId t0 t1 err = st := by
  intro st wid runId t0 t1 err h
  have hnone : st.workflows.find? (fun x => x.id == wid) = none := by
    rw [List.find?_eq_none]
    intro x hx
    simpa using h x hx
  unfold runWorkflow
  rw [hnone]

theorem c9_witness :
    (∀ w ∈ (ProviderState.mk none [wfDemo] [] false).workflows,
        w.id ≠ "nope") ∧
      runWorkflow (ProviderState.mk none [wfDemo] [] false) "nope" "run-1"
          "t0" "t1" none =
        ProviderState.mk none [wfDemo] [] false :=
  ⟨by decide,
   c9_unknown_workflow_noop (ProviderState.mk none [wfDemo] [] false)
     "nope" "run-1" "t0" "t1" none (by decide)⟩

/-- C1 (counterexample): the workflow `wfCyclic` fails validation (spec
scenario C: an edge cycle yields `CycleDetected`), yet `runWorkflow` on a
store holding it creates and records a Run — started `running`, finished
`completed` — and aborts nothing: the source performs no validation at
all. -/
theorem c1_counterexample :
    specValidate wfCyclic = [.CycleDetected] ∧
      (runWorkflow (ProviderState.mk none [wfCyclic] [] false) "wbad"
            "run-1" "t0" "t1" none).workflowRuns =
        [completeRun (mkRun "run-1" "wbad" "cyclic" "t0") "t1"] :=
  ⟨by decide, rfl⟩

/-- C1 (amended): `runWorkflow` never validates.  For every workflow found
in the store — in particular one the spec Validator rejects
(`specValidate w ≠ []`) — a Run is created and recorded (the run list grows
by exactly the new run), instead of aborting with a `ValidationFailed`
error; no error value of any kind exists in the `runWorkflow` source. -/
theorem c1_run_recorded_despite_invalid
    (st : ProviderState) (wid runId t0 t1 : String) (err : Option String)
    (w : Workflow)
    (hfind : st.workflows.find? (fun x => x.id == wid) = some w)
    (hinvalid : specValidate w ≠ [])
    (hfresh : ∀ r ∈ st.workflowRuns, r.id ≠ runId) :
    (runWorkflow st wid runId t0 t1 err).workflowRuns =
      st.workflowRuns ++ [runOutcome (mkRun runId wid w.name t0) t1 err] :=
  runWorkflow_runs_append st wid runId t0 t1 err w hfind hfresh

theorem c1_witness :
    (ProviderState.mk none [wfCyclic] [] false).workflows.find?
        (fun x => x.id == "wbad") = some wfCyclic ∧
      specValidate wfCyclic ≠ [] ∧
      (runWorkflow (ProviderState.mk none [wfCyclic] [] false) "wbad"
            "run-2" "t0" "t1" none).workflowRuns =
        [] ++ [runOutcome (mkRun "run-2" "wbad" wfCyclic.name "t0") "t1" none] :=
  ⟨rfl, by decide,
   c1_run_recorded_despite_invalid (ProviderState.mk none [wfCyclic] [] false)
     "wbad" "run-2" "t0" "t1" none wfCyclic rfl (by decide)
     (by intro r hr; cases hr)⟩

/-- C2 (counterexample): at the instant the Run is first recorded in the
run list (the `setWorkflowRuns((prev) => [...prev, run])` write) its status
is already the literal `"running"`, not `"pending"` — the status union in
the source `"running" | "completed" | "failed"` has no pending (and no
cancelled) member, so no Run is ever created in `pending`. -/
theorem c2_counterexample :
    runWorkflowCreatedRuns (ProviderState.mk none [wfDemo] [] false) "w1"
        "run-1" "t0" = [mkRun "run-1" "w1" "demo" "t0"] ∧
      RunStatus.asString (mkRun "run-1" "w1" "demo" "t0").status =
        "running" ∧
      RunStatus.asString (mkRun "run-1" "w1" "demo" "t0").status ≠
        "pending" :=
  ⟨rfl, rfl, by decide⟩

/-- C2 (amended): the Run lifecycle the source implements is
`running -> {completed | failed}`: the run is created directly in status
`running`, the single update it receives is a `RunStep` to `completed` or
`failed`, and runs already recorded (in particular terminal ones) are left
untouched by a `runWorkflow` call with a fresh run id, so a terminal status
never changes. -/
theorem c2_run_state_machine
    (st : ProviderState) (wid runId t0 t1 : String) (err : Option String)
    (w : Workflow)
    (hfind : st.workflows.find? (fun x => x.id == wid) = some w)
    (hfresh : ∀ r ∈ st.workflowRuns, r.id ≠ runId) :
    (mkRun runId wid w.name t0).status = .running ∧
      RunStep (mkRun runId wid w.name t0)
        (runOutcome (mkRun runId wid w.name t0) t1 err) ∧
      ((runOutcome (mkRun runId wid w.name t0) t1 err).status = .completed ∨
        (runOutcome (mkRun runId wid w.name t0) t1 err).status = .failed) ∧
      (runWorkflow st wid runId t0 t1 err).workflowRuns =
        st.workflowRuns ++ [runOutcome (mkRun runId wid w.name t0) t1 err] := by
  refine ⟨rfl, ?_, runOutcome_status _ t1 err,
    runWorkflow_runs_append st wid runId t0 t1 err w hfind hfresh⟩
  cases err with
  | none => exact RunStep.complete _ t1
  | some e => exact RunStep.fail _ t1 e

theorem c2_witness :
    (ProviderState.mk none [wfDemo] [] false).workflows.find?
        (fun x => x.id == "w1") = some wfDemo ∧
      (mkRun "run-3" "w1" wfDemo.name "t0").status = .running ∧
      RunStep (mkRun "run-3" "w1" wfDemo.name "t0")
        (runOutcome (mkRun "run-3" "w1" wfDemo.name "t0") "t1" none) ∧
      ((runOutcome (mkRun "run-3" "w1" wfDemo.name "t0") "t1" none).status =
          .completed ∨
        (runOutcome (mkRun "run-3" "w1" wfDemo.name "t0") "t1" none).status =
          .failed) ∧
      (runWorkflow (ProviderState.mk none [wfDemo] [] false) "w1" "run-3"
            "t0" "t1" none).workflowRuns =
        [] ++ [runOutcome (mkRun "run-3" "w1" wfDemo.name "t0") "t1" none] :=
  ⟨rfl,
   (c2_run_state_machine (ProviderState.mk none [wfDemo] [] false) "w1"
       "run-3" "t0" "t1" none wfDemo rfl (by intro r hr; cases hr)).1,
   (c2_run_state_machine (ProviderState.mk none [wfDemo] [] false) "w1"
       "run-3" "t0" "t1" none wfDemo rfl (by intro r hr; cases hr)).2.1,
   (c2_run_state_machine (ProviderState.mk none [wfDemo] [] false) "w1"
       "run-3" "t0" "t1" none wfDemo rfl (by intro r hr; cases hr)).2.2.1,
   (c2_run_state_machine (ProviderState.mk none [wfDemo] [] false) "w1"
       "run-3" "t0" "t1" none wfDemo rfl (by intro r hr; cases hr)).2.2.2⟩

/-- C4: for every workflow that passes the (spec-modelled) Validator,
`runWorkflow` terminates and its Run reaches a terminal status: the
embedding is a total function (the execution in the source performs zero node
dispatches — a fixed await — so there is no loop to diverge), and the
single recorded run ends `completed` or `failed`. -/
theorem c4_validated_run_terminates
    (st : ProviderState) (wid runId t0 t1 : String) (err : Option String)
    (w : Workflow)
    (hfind : st.workflows.find? (fun x => x.id == wid) = some w)
    (hvalid : specValidate w = [])
    (hfresh : ∀ r ∈ st.workflowRuns, r.id ≠ runId) :
    ∃ r, (runWorkflow st wid runId t0 t1 err).workflowRuns =
        st.workflowRuns ++ [r] ∧
      (r.status = .completed ∨ r.status = .failed) :=
  ⟨runOutcome (mkRun runId wid w.name t0) t1 err,
   runWorkflow_runs_append st wid runId t0 t1 err w hfind hfresh,
   runOutcome_status _ t1 err⟩

theorem c4_witness :
    (ProviderState.mk none [wfDemo] [] false).workflows.find?
        (fun x => x.id == "w1") = some wfDemo ∧
      specValidate wfDemo = [] ∧
      ∃ r, (runWorkflow (ProviderState.mk none [wfDemo] [] false) "w1"
            "run-4" "t0" "t1" none).workflowRuns = [] ++ [r] ∧
        (r.status = .completed ∨ r.status = .failed) :=
  ⟨rfl, by decide,
   c4_validated_run_terminates (ProviderState.mk none [wfDemo] [] false)
     "w1" "run-4" "t0" "t1" none wfDemo rfl (by decide)
     (by intro r hr; cases hr)⟩

/-- C7: the log of a Run only ever grows by appending.  Every update the
engine performs on a run record (`RunStep`: the `completedRun` /
`failedRun` replacements in the source, the only writes after creation) extends the
previous log list at the tail, so the old log is a prefix of the new one —
nothing is reordered, replaced or removed; and the update `runWorkflow`
actually applies to its created (`running`) run is such a step. -/
theorem c7_logs_append_only :
    (∀ r r' : WorkflowRun, RunStep r r' → ∃ t, r'.logs = r.logs ++ t) ∧
      ∀ (runId wid wname t0 t1 : String) (err : Option String),
        RunStep (mkRun runId wid wname t0)
          (runOutcome (mkRun runId wid wname t0) t1 err) := by
  constructor
  · intro r r' h
    cases h with
    | complete t1 => exact ⟨_, rfl⟩
    | fail t1 e => exact ⟨_, rfl⟩
  · intro runId wid wname t0 t1 err
    cases err with
    | none => exact RunStep.complete _ t1
    | some e => exact RunStep.fail _ t1 e

theorem c7_witness :
    RunStep (mkRun "run-5" "w1" "demo" "t0")
        (runOutcome (mkRun "run-5" "w1" "demo" "t0") "t1" none) ∧
      ∃ t, (runOutcome (mkRun "run-5" "w1" "demo" "t0") "t1" none).logs =
        (mkRun "run-5" "w1" "demo" "t0").logs ++ t :=
  ⟨c7_logs_append_only.2 "run-5" "w1" "demo" "t0" "t1" none,
   c7_logs_append_only.1 _ _
     (c7_logs_append_only.2 "run-5" "w1" "demo" "t0" "t1" none)⟩

lemma runWorkflow_runs_found (st : ProviderState) (wid runId t0 t1 : String)
    (err : Option String) (w : Workflow)
    (hfind : st.workflows.find? (fun x => x.id == wid) = some w) :
    (runWorkflow st wid runId t0 t1 err).workflowRuns =
      (st.workflowRuns ++ [mkRun runId wid w.name t0]).map
        (fun r =>
          if r.id == runId then runOutcome (mkRun runId wid w.name t0) t1 err
          else r) := by
  unfold runWorkflow
  rw [hfind]
  rfl

/-- Spec §8 scenario A/B graph: trigger -> logic.if with the false branch on
port 0 (edge to the email node) and the true branch on port 1 (edge to the
telegram node). -/
def wfIfBranching : Workflow :=
  { id := "w1", name := "branching", description := "",
    nodes := [trigNode, ifNode, actNodeA, actNodeB],
    edges := [mkPlainEdge "e1" "t1" "if1",
              { id := "e2", source := "if1", sourceHandle := some "0",
                target := "b", targetHandle := none, condition := some "false",
                label := some "false" },
              { id := "e3", source := "if1", sourceHandle := some "1",
                target := "a", targetHandle := none, condition := some "true",
                label := some "true" }],
    outputs := 2, createdAt := "T0", updatedAt := "T0" }

/-- C3 (counterexample): executing a workflow whose `logic.if` node has a
port-0 and a port-1 edge records exactly the same Run as executing the same
workflow with ALL edges deleted — the engine activates no edge and marks no
successor `skipped`: `runWorkflow` never reads nodes or edges, so neither
"exactly one branch edge is activated" nor "the other is skipped" happens
for any execution. -/
theorem c3_counterexample :
    (outEdges wfIfBranching.edges "if1").map edgePort = [0, 1] ∧
      (runWorkflow (ProviderState.mk none [wfIfBranching] [] false) "w1"
            "run-1" "t0" "t1" none).workflowRuns =
        (runWorkflow
            (ProviderState.mk none [{ wfIfBranching with edges := [] }] []
              false) "w1" "run-1" "t0" "t1" none).workflowRuns :=
  ⟨by decide, rfl⟩

/-- C3 (amended): no edge is ever activated or skipped at run time — the
recorded Run is invariant under arbitrary replacement of the nodes, edges
and config of the workflow (anything that preserves the id used for lookup and
the name used in the first log line).  The only `logic.if`-specific port
behaviour in the sources is at edit time: `onConnect` labels the new edge
with the prompted `true`/`false` condition exactly when the source node of
the connection is a `logic.if`, and attaches no condition otherwise. -/
theorem c3_no_activation_only_edit_labels :
    (∀ (st st' : ProviderState) (wid runId t0 t1 : String)
        (err : Option String) (w w' : Workflow),
       st.workflows.find? (fun x => x.id == wid) = some w →
       st'.workflows.find? (fun x => x.id == wid) = some w' →
       st'.workflowRuns = st.workflowRuns →
       w'.name = w.name →
       (runWorkflow st' wid runId t0 t1 err).workflowRuns =
         (runWorkflow st wid runId t0 t1 err).workflowRuns) ∧
      ∀ (nodes : List WNode) (edges : List WEdge) (c : Connection)
        (a : String) (n : WNode),
        nodes.find? (fun x => x.id == c.source) = some n →
        (n.type = "logic.if" →
          (jsTrimLower a = "true" ∨ jsTrimLower a = "false") →
          onConnect nodes edges c (some a) =
            addEdgeList
              { id := edgeId c, source := c.source,
                sourceHandle := c.sourceHandle, target := c.target,
                targetHandle := c.targetHandle,
                condition := some (jsTrimLower a),
                label := some (jsTrimLower a) } edges) ∧
        (n.type ≠ "logic.if" →
          onConnect nodes edges c (some a) =
            addEdgeList
              { id := edgeId c, source := c.source,
                sourceHandle := c.sourceHandle, target := c.target,
                targetHandle := c.targetHandle, condition := none,
                label := none } edges) := by
  constructor
  · intro st st' wid runId t0 t1 err w w' hf hf' hruns hname
    rw [runWorkflow_runs_found st wid runId t0 t1 err w hf,
      runWorkflow_runs_found st' wid runId t0 t1 err w' hf', hruns, hname]
  · intro nodes edges c a n hfind
    have hsrc :
        isIfSource nodes c.source = (n.type == "logic.if") := by
      unfold isIfSource
      rw [hfind]
    constructor
    · intro hif hval
      have hIs : isIfSource nodes c.source = true := by
        rw [hsrc]
        simp [hif]
      have hlab : promptLabel true (some a) = some (jsTrimLower a) := by
        have hcond : (jsTrimLower a == "true" || jsTrimLower a == "false") =
            true := by
          rcases hval with h | h <;> simp [h]
        unfold promptLabel
        simp only [Option.map_some']
        rw [if_pos hcond]
      unfold onConnect
      rw [hIs, hlab]
    · intro hnif
      have hIs : isIfSource nodes c.source = false := by
        rw [hsrc]
        simpa using hnif
      have hlab : promptLabel false (some a) = none := rfl
      unfold onConnect
      rw [hIs, hlab]

theorem c3_witness :
    ((ProviderState.mk none [wfIfBranching] [] false).workflows.find?
          (fun x => x.id == "w1") = some wfIfBranching ∧
        (runWorkflow
              (ProviderState.mk none [{ wfIfBranching with edges := [] }] []
                false) "w1" "run-6" "t0" "t1" none).workflowRuns =
          (runWorkflow (ProviderState.mk none [wfIfBranching] [] false) "w1"
              "run-6" "t0" "t1" none).workflowRuns) ∧
      [ifNode].find? (fun x => x.id == "if1") = some ifNode ∧
      ifNode.type = "logic.if" ∧
      jsTrimLower " True " = "true" ∧
      onConnect [ifNode] []
          (Connection.mk "if1" (some "1") "a" none) (some " True ") =
        addEdgeList
          { id := edgeId (Connection.mk "if1" (some "1") "a" none),
            source := "if1", sourceHandle := some "1", target := "a",
            targetHandle := none, condition := some (jsTrimLower " True "),
            label := some (jsTrimLower " True ") } [] :=
  ⟨⟨rfl,
    c3_no_activation_only_edit_labels.1
      (ProviderState.mk none [wfIfBranching] [] false)
      (ProviderState.mk none [{ wfIfBranching with edges := [] }] [] false)
      "w1" "run-6" "t0" "t1" none wfIfBranching
      { wfIfBranching with edges := [] } rfl rfl rfl rfl⟩,
   rfl, rfl, by decide,
   (c3_no_activation_only_edit_labels.2 [ifNode] []
       (Connection.mk "if1" (some "1") "a" none) " True " ifNode rfl).1 rfl
     (Or.inl (by decide))⟩

lemma decodeNode_encodeNode (n : WNode) : decodeNode (encodeNode n) = some n :=
  rfl

lemma decodeOptStr_encodeOptStr (o : Option String) :
    decodeOptStr (encodeOptStr o) = some o := by
  cases o <;> rfl

lemma decodeEdge_encodeEdge (e : WEdge) : decodeEdge (encodeEdge e) = some e := by
  rcases e with ⟨i, s, sh, t, th, c, l⟩
  cases sh <;> cases th <;> cases c <;> cases l <;> rfl

lemma decodeListWith_map {α : Type} (f : Json → Option α) (g : α → Json)
    (h : ∀ x, f (g x) = some x) (l : List α) :
    decodeListWith f (l.map g) = some l := by
  induction l with
  | nil => rfl
  | cons a as ih =>
    simp [decodeListWith, h a, ih]

/-- C5: round-trip — parsing the canonical JSON serialization of a workflow
yields a structurally identical workflow (same node list, same edge list,
same per-node config/data), and likewise for the
`saveLocal`/`loadLocal` pair of `part_002` on a `{nodes, edges}` snapshot. -/
theorem c5_serialize_parse_roundtrip :
    ∀ (w : Workflow) (ns : List WNode) (es : List WEdge),
      decodeWorkflow (encodeWorkflow w) = some w ∧
        loadLocal (some (saveLocal ns es)) = some (ns, es) := by
  intro w ns es
  constructor
  · have h1 : decodeWorkflow (encodeWorkflow w) =
        (do
          let nodes ← decodeListWith decodeNode (w.nodes.map encodeNode)
          let edges ← decodeListWith decodeEdge (w.edges.map encodeEdge)
          some { id := w.id, name := w.name, description := w.description,
                 nodes := nodes, edges := edges, outputs := w.outputs,
                 createdAt := w.createdAt, updatedAt := w.updatedAt }) := rfl
    rw [h1, decodeListWith_map decodeNode encodeNode decodeNode_encodeNode,
      decodeListWith_map decodeEdge encodeEdge decodeEdge_encodeEdge]
    rfl
  · have h2 : loadLocal (some (saveLocal ns es)) =
        (do
          let nodes ← decodeListWith decodeNode (ns.map encodeNode)
          let edges ← decodeListWith decodeEdge (es.map encodeEdge)
          some (nodes, edges)) := rfl
    rw [h2, decodeListWith_map decodeNode encodeNode decodeNode_encodeNode,
      decodeListWith_map decodeEdge encodeEdge decodeEdge_encodeEdge]
    rfl

/-- A valid form element for `handleImport`: id, fieldName and type all
present and truthy. -/
def importElGood : Json :=
  .obj [("id", .str "x1"), ("fieldName", .str "Full Name"),
        ("type", .str "text")]

/-- An invalid element: `fieldName` and `type` missing. -/
def importElBad1 : Json := .obj [("id", .str "x2")]

/-- A second, different invalid element: every required field missing. -/
def importElBad2 : Json := .obj []

/-- An import payload containing TWO violations (`importElBad1` and
`importElBad2`) with a valid element between them. -/
def importSchemaTwoBad : Json :=
  .obj [("title", .str "Contact"),
        ("elements", .arr [importElBad1, importElGood, importElBad2])]

/-- The same payload truncated after the first violation. -/
def importSchemaOneBad : Json :=
  .obj [("title", .str "Contact"),
        ("elements", .arr [importElBad1, importElGood])]

lemma checkElements_first_error (pre rest : List Json) (bad : Json)
    (hpre : ∀ e ∈ pre, elementValid e = true)
    (hbad : elementValid bad = false) :
    checkElements (pre ++ bad :: rest) = .error importMsgElement := by
  induction pre with
  | nil =>
    simp only [List.nil_append, checkElements, hbad]
    rfl
  | cons a as ih =>
    have ha : elementValid a = true := hpre a (by simp)
    simp only [List.cons_append, checkElements, ha, if_pos]
    exact ih (fun e he => hpre e (by simp [he]))

/-- C6 (counterexample): `handleImport` does NOT return the complete list of
violations: on a payload with two invalid elements it reports the single
first error message, while the collector the spec describes (`importAllViolations`)
finds two problems; and the result is literally identical to that for the
payload with the second violation deleted — everything after the first
violation is never examined. -/
theorem c6_counterexample :
    handleImportCheck importSchemaTwoBad = .error importMsgElement ∧
      (importAllViolations importSchemaTwoBad).length = 2 ∧
      handleImportCheck importSchemaTwoBad =
        handleImportCheck importSchemaOneBad :=
  ⟨rfl, rfl, rfl⟩

/-- C6 (amended): the `handleImport` validation short-circuits at the first
violation: for any payload whose element list is valid up to some first
invalid element, the result is the single error message
`"Invalid element: missing required fields"`, no matter what follows that
element — later violations (or their absence) are never reflected in the
outcome. -/
theorem c6_import_validation_short_circuits
    (ttl : String) (pre rest : List Json) (bad : Json)
    (httl : ttl ≠ "")
    (hpre : ∀ e ∈ pre, elementValid e = true)
    (hbad : elementValid bad = false) :
    handleImportCheck
        (.obj [("title", .str ttl),
               ("elements", .arr (pre ++ bad :: rest))]) =
      .error importMsgElement := by
  have hkey :
      handleImportCheck
          (.obj [("title", .str ttl),
                 ("elements", .arr (pre ++ bad :: rest))]) =
        (if !(jsTruthy (some (.str ttl))) then Except.error importMsgSchema
         else
           match checkElements (pre ++ bad :: rest) with
           | .ok _ =>
             Except.ok
               (Json.obj
                 [("title", .str ttl),
                  ("elements", .arr (pre ++ bad :: rest))])
           | .error m => Except.error m) := rfl
  rw [hkey, checkElements_first_error pre rest bad hpre hbad]
  have htruthy : jsTruthy (some (.str ttl)) = true := by
    simp [jsTruthy, httl]
  rw [htruthy]
  rfl

theorem c6_witness :
    ("Contact" : String) ≠ "" ∧
      (∀ e ∈ [importElGood], elementValid e = true) ∧
      elementValid importElBad1 = false ∧
      handleImportCheck
          (.obj [("title", .str "Contact"),
                 ("elements",
                  .arr ([importElGood] ++ importElBad1 :: [importElBad2]))]) =
        .error importMsgElement :=
  ⟨by decide, by decide, by decide,
   c6_import_validation_short_circuits "Contact" [importElGood]
     [importElBad2] importElBad1 (by decide) (by decide) (by decide)⟩

lemma ids_map_replace (l : List Workflow) (w : Workflow) :
    (l.map (fun x => if x.id == w.id then w else x)).map (fun x => x.id) =
      l.map (fun x => x.id) := by
  induction l with
  | nil => rfl
  | cons a as ih =>
    have hhead : (if (a.id == w.id) = true then w else a).id = a.id := by
      by_cases h : (a.id == w.id) = true
      · rw [if_pos h]
        exact (eq_of_beq h).symm
      · rw [if_neg h]
    simp only [List.map_cons, hhead, ih]

/-- The stored entry: saved earlier with `createdAt = "2024-01-01"`. -/
def wfStored : Workflow :=
  { id := "w1", name := "old", description := "", nodes := [], edges := [],
    outputs := 0, createdAt := "2024-01-01", updatedAt := "2024-01-01" }

/-- A current workflow with the same id but a diverged `createdAt` (the
provider state carries `currentWorkflow` and the `workflows` list as
independent values; nothing forces their `createdAt`s to agree). -/
def wfCurB : Workflow := { wfStored with createdAt := "2024-02-02" }

/-- C10 (counterexample): saving under an existing id does replace the
entry in place (length stays 1), but the `createdAt` of the replaced entry
is NOT the original value of the stored entry: `saveWorkflow` takes
`currentWorkflow?.createdAt || now`, so with a current workflow whose
`createdAt` differs from that of the stored entry, the stored `"2024-01-01"` is
overwritten by `"2024-02-02"`. -/
theorem c10_counterexample :
    wfStored.createdAt = "2024-01-01" ∧
      ((saveWorkflow (ProviderState.mk (some wfCurB) [wfStored] [] false)
            "new name" "" [] [] 0 "2024-03-03"
            "workflow-99").workflows.map (fun x => x.createdAt)) =
        ["2024-02-02"] ∧
      (saveWorkflow (ProviderState.mk (some wfCurB) [wfStored] [] false)
          "new name" "" [] [] 0 "2024-03-03"
          "workflow-99").workflows.length = 1 :=
  ⟨rfl, rfl, rfl⟩

/-- C10 (amended): `saveWorkflow` preserves uniqueness of workflow ids —
if all ids are distinct before the call they remain distinct after; saving
under an id already in the list replaces that entry in place (length
unchanged), saving under a fresh id appends exactly one entry; and the
`createdAt` of the saved record is `currentWorkflow?.createdAt || now` (so
the original `createdAt` of the stored entry survives a replace exactly
when it agrees with that of the current workflow, as it does for states produced by
`saveWorkflow` itself). -/
theorem c10_save_preserves_id_uniqueness
    (prev : List Workflow) (w : Workflow)
    (hnodup : (prev.map (fun x => x.id)).Nodup) :
    ((saveWorkflowList prev w).map (fun x => x.id)).Nodup ∧
      ((∃ x ∈ prev, x.id = w.id) →
        (saveWorkflowList prev w).length = prev.length) ∧
      ((∀ x ∈ prev, x.id ≠ w.id) → saveWorkflowList prev w = prev ++ [w]) ∧
      ∀ (cur : Option Workflow) (name descr : String) (nodes : List WNode)
        (edges : List WEdge) (outputs : Int) (now freshId : String),
        (mkSavedWorkflow cur name descr nodes edges outputs now
            freshId).createdAt =
          jsOrStr (cur.map (fun x => x.createdAt)) now := by
  by_cases hs : (prev.find? (fun x => x.id == w.id)).isSome = true
  · refine ⟨?_, ?_, ?_, fun cur name descr nodes edges outputs now freshId => rfl⟩
    · unfold saveWorkflowList
      rw [if_pos hs, ids_map_replace]
      exact hnodup
    · intro _
      unfold saveWorkflowList
      rw [if_pos hs, List.length_map]
    · intro hnone
      exfalso
      obtain ⟨x, hx, hpx⟩ := List.find?_isSome.mp hs
      exact hnone x hx (eq_of_beq hpx)
  · have hnone : prev.find? (fun x => x.id == w.id) = none :=
      Option.not_isSome_iff_eq_none.mp hs
    have hall : ∀ x ∈ prev, x.id ≠ w.id := by
      intro x hx
      have := List.find?_eq_none.mp hnone x hx
      simpa using this
    refine ⟨?_, ?_, ?_, fun cur name descr nodes edges outputs now freshId => rfl⟩
    · unfold saveWorkflowList
      rw [if_neg hs, List.map_append]
      refine List.Nodup.append hnodup (List.nodup_singleton w.id) ?_
      intro a ha hb
      simp only [List.map_cons, List.map_nil, List.mem_singleton] at hb
      obtain ⟨x, hx, rfl⟩ := List.mem_map.mp ha
      exact hall x hx hb
    · intro ⟨x, hx, hid⟩
      exact absurd hid (hall x hx)
    · intro _
      unfold saveWorkflowList
      rw [if_neg hs]

theorem c10_witness :
    (([wfStored].map (fun x => x.id)).Nodup ∧
        ((∃ x ∈ [wfStored],
            x.id = (mkSavedWorkflow (some wfCurB) "new name" "" [] [] 0
                "2024-03-03" "workflow-99").id) →
          (saveWorkflowList [wfStored]
              (mkSavedWorkflow (some wfCurB) "new name" "" [] [] 0
                "2024-03-03" "workflow-99")).length = [wfStored].length)) ∧
      (mkSavedWorkflow (some wfCurB) "new name" "" [] [] 0 "2024-03-03"
          "workflow-99").createdAt =
        jsOrStr ((some wfCurB).map (fun x => x.createdAt)) "2024-03-03" :=
  ⟨⟨(c10_save_preserves_id_uniqueness [wfStored]
       (mkSavedWorkflow (some wfCurB) "new name" "" [] [] 0 "2024-03-03"
         "workflow-99") (by decide)).1,
    (c10_save_preserves_id_uniqueness [wfStored]
       (mkSavedWorkflow (some wfCurB) "new name" "" [] [] 0 "2024-03-03"
         "workflow-99") (by decide)).2.1⟩,
   (c10_save_preserves_id_uniqueness [wfStored]
      (mkSavedWorkflow (some wfCurB) "new name" "" [] [] 0 "2024-03-03"
        "workflow-99") (by decide)).2.2.2 (some wfCurB) "new name" "" [] []
     0 "2024-03-03" "workflow-99"⟩
